import Mathlib

/-!
Verification development for the PDF-to-recipe extraction pipeline
(`pdf_to_recipe.py`).  The Python source is shallowly embedded: pure string
manipulation is translated function-by-function over `List Char`; the
external collaborators (model client, JSON parser, PDF rasterizer, clock,
filesystem rename success) are parameters collected in an `Oracles` record;
the filesystem is a list of `(stem, extension)` path names scoped to the one
working directory the script operates in.

Character-level note: Python's `\w`, `\s`, `str.strip`, `str.lower` are
modelled over the ASCII character classes (the regex classes are embedded as
explicit character lists).
-/

/- ------------------------------------------------------------------ -/
/- Python string primitives used by the script                         -/
/- ------------------------------------------------------------------ -/

/-- The ASCII whitespace class of Python's `\s` and `str.strip()`. -/
def spaceChars : List Char := [' ', '\t', '\n', '\r', '\x0b', '\x0c']

/-- The ASCII word class of Python's `\w` (alphanumerics and underscore). -/
def wordChars : List Char :=
  "abcdefghijklmnopqrstuvwxyzABCDEFGHIJKLMNOPQRSTUVWXYZ0123456789_".data

def pyIsSpace (c : Char) : Bool := decide (c ∈ spaceChars)

def pyIsWord (c : Char) : Bool := decide (c ∈ wordChars)

/-- Drop the longest prefix of characters satisfying `p` (one side of `strip`). -/
def dropLeading (p : Char → Bool) : List Char → List Char
  | [] => []
  | c :: rest => if p c then dropLeading p rest else c :: rest

/-- Drop the longest suffix of characters satisfying `p` (the other side of `strip`). -/
def dropTrailing (p : Char → Bool) : List Char → List Char
  | [] => []
  | c :: rest =>
    match dropTrailing p rest with
    | [] => if p c then [] else [c]
    | r => c :: r

/-- Python `str.strip`-style trimming with an arbitrary character predicate. -/
def stripBy (p : Char → Bool) (l : List Char) : List Char :=
  dropTrailing p (dropLeading p l)

/-- Python `str.strip()` on a `String`. -/
def pyStripS (s : String) : String := String.mk (stripBy pyIsSpace s.data)

/-- Replace each maximal run of whitespace by a single underscore:
Python `re.sub(r'\s+', '_', s)`.  The boolean records whether the previous
character was part of a whitespace run. -/
def collapseWSAux : Bool → List Char → List Char
  | _, [] => []
  | prev, c :: rest =>
    if pyIsSpace c then
      if prev then collapseWSAux true rest
      else '_' :: collapseWSAux true rest
    else c :: collapseWSAux false rest

def collapseWS (l : List Char) : List Char := collapseWSAux false l

def isUnderscore (c : Char) : Bool := decide (c = '_')

/-- Characters kept by `re.sub(r'[^\w\s-]', '', ...)`: word characters,
whitespace, and hyphen. -/
def keepChar (c : Char) : Bool := pyIsWord c || pyIsSpace c || decide (c = '-')

/- ------------------------------------------------------------------ -/
/- make_unix_safe_filename (source lines 60-76), staged                -/
/- ------------------------------------------------------------------ -/

/-- Stage (a): `re.sub(r'[^\w\s-]', '', title.strip())`. -/
def slugStage1 (l : List Char) : List Char := (stripBy pyIsSpace l).filter keepChar

/-- Stage (b): `re.sub(r'\s+', '_', ...)`. -/
def slugStage2 (l : List Char) : List Char := collapseWS (slugStage1 l)

/-- Stage (c): `.strip('_')`. -/
def slugStage3 (l : List Char) : List Char := stripBy isUnderscore (slugStage2 l)

/-- Stage (d): `.lower()`. -/
def slugStage4 (l : List Char) : List Char := (slugStage3 l).map Char.toLower

/-- Embedding of `make_unix_safe_filename`: empty input falls back to
`unknown_recipe`; the cleaned name falls back to `unknown_recipe` when empty,
and is otherwise truncated to 50 characters. -/
def make_unix_safe_filename (title : String) : String :=
  if title = "" then "unknown_recipe"
  else if slugStage4 title.data = [] then "unknown_recipe"
  else String.mk ((slugStage4 title.data).take 50)

/- ------------------------------------------------------------------ -/
/- Category validation (source lines 255-258)                          -/
/- ------------------------------------------------------------------ -/

def validCategories : List String :=
  ["Breakfast", "Lunch", "Dinner", "Snack", "Dessert", "Appetizer"]

/-- Embedding of the Stage-1 category check: any string outside the fixed
enum is coerced to "Dinner". -/
def validateCategory (c : String) : String :=
  if c ∈ validCategories then c else "Dinner"

/- ------------------------------------------------------------------ -/
/- Heuristic JSON recovery (find first brace, rfind last brace)        -/
/- ------------------------------------------------------------------ -/

/-- Index of the first occurrence of `c`, Python `str.find` (as an Option
instead of -1). -/
def findIdx0 (c : Char) : List Char → Option Nat
  | [] => none
  | a :: rest => if a = c then some 0 else (findIdx0 c rest).map (· + 1)

/-- Index of the last occurrence of `c`, Python `str.rfind`. -/
def rfindIdx (c : Char) (l : List Char) : Option Nat :=
  (findIdx0 c l.reverse).map (fun i => l.length - 1 - i)

/-- Python slice `s[a:b]` for nonnegative bounds. -/
def pySlice (a b : Nat) (l : List Char) : List Char := (l.take b).drop a

/-- The script's bracket-pair heuristic: `start = content.find(open)`,
`end = content.rfind(close) + 1`, slice when `start != -1`.  Note the code
only guards on `start` (`end` is never `-1` after the `+ 1`), which this
embedding reproduces: a missing closing bracket yields the empty slice. -/
def extractDelim (openC closeC : Char) (l : List Char) : Option (List Char) :=
  match findIdx0 openC l with
  | none => none
  | some s =>
    let e := match rfindIdx closeC l with
             | some j => j + 1
             | none => 0
    some (pySlice s e l)

/-- Python `content.split('\n')`. -/
def splitNL : List Char → List (List Char)
  | [] => [[]]
  | c :: rest =>
    if c = '\n' then [] :: splitNL rest
    else
      match splitNL rest with
      | [] => [[c]]
      | h :: t => (c :: h) :: t

/- ------------------------------------------------------------------ -/
/- Data model                                                          -/
/- ------------------------------------------------------------------ -/

/-- A file in the working directory, identified by stem and extension
(the script manipulates exactly such names: `{slug}.pdf`, `{slug}_page2.jpg`,
`{slug}_ingredients.jpg`, `{stem}.json`). -/
structure PathName where
  stem : String
  ext : String
deriving DecidableEq, Repr

/-- The working directory's contents: the set of files present. -/
abbrev FS : Type := List PathName

def addFile (fs : FS) (p : PathName) : FS := if p ∈ fs then fs else p :: fs

def removeFile (fs : FS) (p : PathName) : FS :=
  List.filter (fun q => decide (q ≠ p)) fs

def renameFS (fs : FS) (a b : PathName) : FS := addFile (removeFile fs a) b

/-- Result of Stage 1's JSON parse, after the `.get('title','')`-style
defaults the code applies (`title`, `description` default to `""`,
`tags` to `[]`). -/
structure TitleData where
  title : String
  description : String
  category : String
  tags : List String
deriving DecidableEq, Repr

/-- Pixel bounding box with the four offsets the Stage 2 prompt requests. -/
structure BBox where
  top : Int
  left : Int
  bottom : Int
  right : Int
deriving DecidableEq, Repr

/-- The parsed Stage-2 object: the code accesses the two keys with
`'ingredients' in bounding_boxes` / `'instructions' in bounding_boxes`,
so each is optional. -/
structure BBoxes where
  ingredients : Option BBox
  instructions : Option BBox
deriving DecidableEq, Repr

structure Ingredient where
  name : String
  quantity : String
  unit : String
  optional : Bool
deriving DecidableEq, Repr

/-- One entry of the `recipes` array built by Action 5. -/
structure RecipeItem where
  name : String
  description : String
  category : String
  images : List String
  ingredients : List Ingredient
  instructions : List String
  servings : Nat
  defaultDuration : Nat
  tags : List String
deriving DecidableEq, Repr

/-- The persisted JSON envelope built by Action 5. -/
structure RecipeJson where
  version : Nat
  exportDate : String
  recipes : List RecipeItem
deriving DecidableEq, Repr

/-- Processor configuration relevant to control flow: `--max-action`
(Python `None` when unset; note the code tests it with truthiness, so `0`
also disables the limit) and `--skip-action2`. -/
structure Config where
  maxAction : Option Nat
  skipAction2 : Bool

/-- Embedding of `if self.max_action and self.max_action < k`. -/
def maxActionStops (cfg : Config) (k : Nat) : Bool :=
  match cfg.maxAction with
  | some m => decide (m ≠ 0) && decide (m < k)
  | none => false

/-- External collaborators for one document, fixed for the run:
the model responses per action (`none` models an exception raised by the
client call), the JSON parses (`json.loads` plus field accesses; `none`
models a parse error), the rasterizer page count (`0` models a conversion
failure), which renames raise `OSError`, whether the JSON write raises
(`writeFails`), and the clock. -/
structure Oracles where
  pages : PathName → Nat
  a1Response : Option String
  parseTitle : String → Option TitleData
  a2Response : Option String
  parseBoxes : String → Option BBoxes
  a3Response : Option String
  a4Response : Option String
  parseIngredients : String → Option (List Ingredient)
  renameFails : PathName → PathName → Bool
  writeFails : Bool
  now : String

/- ------------------------------------------------------------------ -/
/- Action 1: title extraction and rename (source lines 166-290)        -/
/- ------------------------------------------------------------------ -/

/-- The extraction half of Action 1, up to the point where renaming starts:
strip the response, recover a JSON object between the first `\x7b` and the
last `\x7d`, fall back to treating the whole response as the title when no
object can be recovered, reject an empty title, validate the category and
filter empty tags.  Returns `none` exactly on the paths where the code
returns the `(None, ..., image_paths, pdf_path)` tuple before any rename. -/
def a1Extract (o : Oracles) : Option TitleData :=
  match o.a1Response with
  | none => none
  | some raw =>
    let content := pyStripS raw
    if content = "" then none
    else
      let d : TitleData :=
        match extractDelim '\x7b' '\x7d' content.data with
        | some js =>
          match o.parseTitle (String.mk js) with
          | some pd => pd
          | none => ⟨content, "", "Dinner", []⟩
        | none => ⟨content, "", "Dinner", []⟩
      if d.title = "" then none
      else some ⟨d.title, d.description, validateCategory d.category,
                 d.tags.filter (fun t => decide (t ≠ ""))⟩

/-- The image names Action 1 renames to (and, with the original stem, the
names the rasterizer creates): `{slug}.jpg` for a single page,
`{slug}_page{n}.jpg` (1-indexed) otherwise. -/
def imageTargets (safe : String) (total : Nat) : List PathName :=
  if total = 1 then [⟨safe, "jpg"⟩]
  else (List.range total).map (fun i => ⟨safe ++ "_page" ++ toString (i + 1), "jpg"⟩)

/-- The image-rename loop.  Each pair is `(current path, target path)`; a
failing rename raises, which the embedding models as `Except.error`
carrying the filesystem and the renames already committed. -/
def renameEach (rf : PathName → PathName → Bool) :
    List (PathName × PathName) → FS →
    Except (FS × List (PathName × PathName))
      (List PathName × FS × List (PathName × PathName))
  | [], fs => .ok ([], fs, [])
  | (a, b) :: rest, fs =>
    if rf a b then .error (fs, [])
    else
      match renameEach rf rest (renameFS fs a b) with
      | .ok (ps, fs2, rs) => .ok (b :: ps, fs2, (a, b) :: rs)
      | .error (fs2, rs) => .error (fs2, (a, b) :: rs)

/-- Result of Action 1: the returned tuple plus the filesystem and the list
of renames that were committed on disk. -/
structure A1Out where
  title : Option String
  description : Option String
  category : Option String
  tags : Option (List String)
  imagePaths : List PathName
  pdfPath : PathName
  fs : FS
  renames : List (PathName × PathName)

/-- Embedding of `action_1_extract_meal_title`.  On any exception inside the
`try` block (modelled: a rename failure; the model-call failure is
`a1Response = none`) the code returns the original `image_paths` and
`pdf_path` with a `None` title, leaving any renames already performed
committed on disk. -/
def action_1_extract_meal_title (o : Oracles) (imagePaths : List PathName)
    (pdfPath : PathName) (fs : FS) : A1Out :=
  match a1Extract o with
  | none => ⟨none, none, none, none, imagePaths, pdfPath, fs, []⟩
  | some td =>
    let safe := make_unix_safe_filename td.title
    let newPdf : PathName := ⟨safe, "pdf"⟩
    let pdfStep : Except FS (FS × List (PathName × PathName)) :=
      if pdfPath = newPdf then .ok (fs, [])
      else if o.renameFails pdfPath newPdf then .error fs
      else .ok (renameFS fs pdfPath newPdf, [(pdfPath, newPdf)])
    match pdfStep with
    | .error fs1 => ⟨none, none, none, none, imagePaths, pdfPath, fs1, []⟩
    | .ok (fs1, r1) =>
      match renameEach o.renameFails
          (imagePaths.zip (imageTargets safe imagePaths.length)) fs1 with
      | .error (fs2, r2) =>
        ⟨none, none, none, none, imagePaths, pdfPath, fs2, r1 ++ r2⟩
      | .ok (newPaths, fs2, r2) =>
        ⟨some td.title, some td.description, some td.category, some td.tags,
         newPaths, newPdf, fs2, r1 ++ r2⟩

/- ------------------------------------------------------------------ -/
/- Action 2 and cropping (source lines 292-405)                        -/
/- ------------------------------------------------------------------ -/

/-- The image both Action 2 and the cropper (and, as it happens, Actions 3
and 4) select: the second image if present, else the first. -/
def secondOrFirst : List PathName → Option PathName
  | [] => none
  | [a] => some a
  | _ :: b :: _ => some b

/-- Embedding of `action_2_detect_bounding_boxes`.  The selected image is
encoded by `encode_image_to_base64` BEFORE the `try` block (source lines
299-302, `try` at 333): an empty image list (IndexError on
`image_paths[0]`) or a path no longer present in the directory
(FileNotFoundError on `open`, e.g. a stale pre-rename path after a partial
Stage-1 rename) raises an exception that nothing in the pipeline catches,
modelled as `Except.error`.  Exceptions inside the `try` (model call,
parse) are caught and yield `none`; the response is stripped and the
bounding-box JSON recovered with the same brace heuristic. -/
def action_2_detect_bounding_boxes (o : Oracles) (imagePaths : List PathName)
    (fs : FS) : Except Unit (Option BBoxes) :=
  match secondOrFirst imagePaths with
  | none => .error ()
  | some sel =>
    if sel ∈ fs then
      .ok (match o.a2Response with
        | none => none
        | some raw =>
          let content := pyStripS raw
          match extractDelim '\x7b' '\x7d' content.data with
          | none => none
          | some js => o.parseBoxes (String.mk js))
    else .error ()

/-- Observable operations of `crop_images_from_bounding_boxes`: the crop
call issued to the external cropper, and the save of a crop artifact. -/
inductive CropEvent
  | cropAttempt (region : String) (b : BBox)
  | saveAttempt (p : PathName)
deriving DecidableEq, Repr

/-- One `img.crop(...)` / `crop.save(...)` pair.  Modelled from the spec:
the external Image Cropper "fails if box coordinates are inconsistent"
(spec section 6); concretely, Pillow's `Image.crop` raises when
`right < left` or `bottom < top`, and saving a zero-area JPEG raises, so a
box with `right <= left` or `bottom <= top` always raises during the
attempted crop/save.  The event list records what was attempted before the
exception. -/
def cropOne (region : String) (b : BBox) (target : PathName) (fs : FS) :
    Except (FS × List CropEvent) (PathName × FS × List CropEvent) :=
  if b.right < b.left ∨ b.bottom < b.top then
    .error (fs, [CropEvent.cropAttempt region b])
  else if b.right = b.left ∨ b.bottom = b.top then
    .error (fs, [CropEvent.cropAttempt region b, CropEvent.saveAttempt target])
  else
    .ok (target, addFile fs target,
         [CropEvent.cropAttempt region b, CropEvent.saveAttempt target])

structure CropOut where
  ingredientsPath : Option PathName
  instructionsPath : Option PathName
  fs : FS
  events : List CropEvent

/-- Embedding of `crop_images_from_bounding_boxes`: crop the ingredients
box (when the key is present), then the instructions box; any exception is
caught and the function returns `(None, None)`, keeping whatever crop
artifacts were already saved. -/
def crop_images_from_bounding_boxes (boxes : BBoxes) (safe : String) (fs : FS) :
    CropOut :=
  let ingStep : Except (FS × List CropEvent)
      (Option PathName × FS × List CropEvent) :=
    match boxes.ingredients with
    | none => .ok (none, fs, [])
    | some b =>
      match cropOne "ingredients" b ⟨safe ++ "_ingredients", "jpg"⟩ fs with
      | .ok (p, fs1, ev) => .ok (some p, fs1, ev)
      | .error e => .error e
  match ingStep with
  | .error (fs1, ev) => ⟨none, none, fs1, ev⟩
  | .ok (ip, fs1, ev1) =>
    match boxes.instructions with
    | none => ⟨ip, none, fs1, ev1⟩
    | some b =>
      match cropOne "instructions" b ⟨safe ++ "_instructions", "jpg"⟩ fs1 with
      | .ok (p, fs2, ev2) => ⟨ip, some p, fs2, ev1 ++ ev2⟩
      | .error (fs2, ev2) => ⟨none, none, fs2, ev1 ++ ev2⟩

/- ------------------------------------------------------------------ -/
/- Actions 3 and 4 (source lines 407-550)                              -/
/- ------------------------------------------------------------------ -/

/-- Embedding of `action_3_extract_instructions`.  As in Action 2, the
selected image is encoded before the `try` block (lines 414-420, `try` at
429), so a missing image raises uncaught (`Except.error`).  Otherwise the
response is stripped, split into lines, each line stripped and the
non-empty ones kept; an empty result (or a caught model-call exception) is
`None`. -/
def action_3_extract_instructions (o : Oracles) (imagePaths : List PathName)
    (fs : FS) : Except Unit (Option (List String)) :=
  match secondOrFirst imagePaths with
  | none => .error ()
  | some sel =>
    if sel ∈ fs then
      .ok (match o.a3Response with
        | none => none
        | some raw =>
          let content := pyStripS raw
          let lines := ((splitNL content.data).map (stripBy pyIsSpace)).filter
            (fun l => decide (l ≠ []))
          if lines = [] then none else some (lines.map String.mk))
    else .error ()

/-- Embedding of `action_4_extract_ingredients`.  As in Actions 2 and 3,
the selected image is encoded before the `try` block (lines 466-473, `try`
at 512), so a missing image raises uncaught (`Except.error`).  Otherwise
the response is stripped, a JSON array is recovered between the first and
last square bracket and parsed; any caught failure is `None`. -/
def action_4_extract_ingredients (o : Oracles) (imagePaths : List PathName)
    (fs : FS) : Except Unit (Option (List Ingredient)) :=
  match secondOrFirst imagePaths with
  | none => .error ()
  | some sel =>
    if sel ∈ fs then
      .ok (match o.a4Response with
        | none => none
        | some raw =>
          let content := pyStripS raw
          match extractDelim '[' ']' content.data with
          | none => none
          | some js => o.parseIngredients (String.mk js))
    else .error ()

/- ------------------------------------------------------------------ -/
/- Action 5 (source lines 552-580)                                     -/
/- ------------------------------------------------------------------ -/

def pathFileName (p : PathName) : String := p.stem ++ "." ++ p.ext

/-- Embedding of `action_5_combine_outputs`: a pure combination of the
accumulated state (no model oracle is consumed).  `now` stands for
`datetime.utcnow().isoformat()`. -/
def action_5_combine_outputs (title : Option String) (description : String)
    (category : String) (tags : List String) (instrs : Option (List String))
    (ingrs : Option (List Ingredient)) (imagePaths : List PathName)
    (pdfPath : PathName) (now : String) : RecipeJson :=
  let name := match title with
    | some t => if t = "" then pdfPath.stem else t
    | none => pdfPath.stem
  let item : RecipeItem :=
    { name := name
      description := description
      category := if category = "" then "Dinner" else category
      images := imagePaths.map (fun p => "./" ++ pathFileName p)
      ingredients := ingrs.getD []
      instructions := instrs.getD []
      servings := 4
      defaultDuration := 2
      tags := tags }
  { version := 1, exportDate := now ++ "Z", recipes := [item] }

/- ------------------------------------------------------------------ -/
/- The stage pipeline driver (source lines 582-659)                    -/
/- ------------------------------------------------------------------ -/

/-- Result of `analyze_images_with_actions` plus an observation trace:
which image each model-facing action selected for encoding (`a2Image`,
`a3Image`, `a4Image`), the crop operations attempted, the crop artifacts
produced, the renames Stage 1 committed, and whether an uncaught exception
escaped the pipeline (`raised`: the stale-path encode of Actions 2-4). -/
structure AnalyzeOut where
  recipe : Option RecipeJson
  updatedPdf : PathName
  fs : FS
  a1Title : Option String
  renames : List (PathName × PathName)
  a2Image : Option PathName
  cropEvents : List CropEvent
  ingredientsCrop : Option PathName
  instructionsCrop : Option PathName
  a3Image : Option PathName
  a4Image : Option PathName
  raised : Bool

/-- Actions 3 to 5 (shared by the skip-Action-2 path and the crop path).
Note, faithfully to the source: Actions 3 and 4 encode the second-or-first
image of `a1Imgs` (the page images as returned by Action 1), not the crop
artifacts; a stale or missing selected image makes the encode raise
uncaught (`raised`), aborting the rest of the pipeline without any
catch. -/
def analyzeTail (o : Oracles) (cfg : Config) (a1Imgs : List PathName)
    (title : Option String) (description category : String)
    (tags : List String) (updatedPdf : PathName) (st : AnalyzeOut) :
    AnalyzeOut :=
  if maxActionStops cfg 3 then st
  else
    match action_3_extract_instructions o a1Imgs st.fs with
    | .error _ => { st with a3Image := secondOrFirst a1Imgs, raised := true }
    | .ok instrs =>
      let st3 := { st with a3Image := secondOrFirst a1Imgs }
      if maxActionStops cfg 4 then st3
      else
        match action_4_extract_ingredients o a1Imgs st3.fs with
        | .error _ =>
          { st3 with a4Image := secondOrFirst a1Imgs, raised := true }
        | .ok ingrs =>
          let st4 := { st3 with a4Image := secondOrFirst a1Imgs }
          if maxActionStops cfg 5 then st4
          else
            { st4 with recipe := some (action_5_combine_outputs title
                description category tags instrs ingrs a1Imgs updatedPdf
                o.now) }

/-- Embedding of `analyze_images_with_actions`: run Action 1; on a missing
title fall back to the original stem and default metadata and continue
(soft failure); honour `--max-action` and `--skip-action2`; a missing
bounding-box result or a failed crop aborts with no recipe (hard failure);
an uncaught encode exception in Actions 2-4 aborts with no recipe and
`raised` set (nothing in this function catches it). -/
def analyze_images_with_actions (o : Oracles) (cfg : Config)
    (imagePaths : List PathName) (pdfPath : PathName) (fs : FS) : AnalyzeOut :=
  let a1 := action_1_extract_meal_title o imagePaths pdfPath fs
  let safe := match a1.title with
    | none => pdfPath.stem
    | some t => make_unix_safe_filename t
  let description := match a1.title with
    | none => ""
    | some _ => a1.description.getD ""
  let category := match a1.title with
    | none => "Dinner"
    | some _ => a1.category.getD ""
  let tags := match a1.title with
    | none => []
    | some _ => a1.tags.getD []
  let updatedPdf := match a1.title with
    | none => pdfPath
    | some _ => a1.pdfPath
  let base : AnalyzeOut :=
    { recipe := none, updatedPdf := updatedPdf, fs := a1.fs,
      a1Title := a1.title, renames := a1.renames, a2Image := none,
      cropEvents := [], ingredientsCrop := none, instructionsCrop := none,
      a3Image := none, a4Image := none, raised := false }
  if maxActionStops cfg 2 then base
  else if cfg.skipAction2 then
    analyzeTail o cfg a1.imagePaths a1.title description category tags
      updatedPdf base
  else
    let base2 := { base with a2Image := secondOrFirst a1.imagePaths }
    match action_2_detect_bounding_boxes o a1.imagePaths a1.fs with
    | .error _ => { base2 with raised := true }
    | .ok none => base2
    | .ok (some boxes) =>
      let cr := crop_images_from_bounding_boxes boxes safe a1.fs
      let st2 := { base2 with
        fs := cr.fs
        cropEvents := cr.events
        ingredientsCrop := cr.ingredientsPath
        instructionsCrop := cr.instructionsPath }
      match cr.ingredientsPath, cr.instructionsPath with
      | some _, some _ =>
        analyzeTail o cfg a1.imagePaths a1.title description category tags
          updatedPdf st2
      | _, _ => st2

/- ------------------------------------------------------------------ -/
/- Document processor and batch driver (source lines 118-133, 662-739) -/
/- ------------------------------------------------------------------ -/

/-- Embedding of `save_recipe_json`: write `{pdf_path.stem}.json` into the
working directory. -/
def save_recipe_json (fs : FS) (pdfPath : PathName) : PathName × FS :=
  let jp : PathName := ⟨pdfPath.stem, "json"⟩
  (jp, addFile fs jp)

/-- Result of `process_pdf`: the record written (if any) with its path, the
final directory contents, the rasterized image names, the pipeline
observation, and whether an uncaught exception propagated out of
`process_pdf` (to be caught only by `process_all`'s per-document
`except`). -/
structure ProcOut where
  written : Option (PathName × RecipeJson)
  fs : FS
  createdImages : List PathName
  an : Option AnalyzeOut
  raised : Bool

/-- Embedding of `process_pdf`: rasterize (one image per page, named by
`imageTargets` over the original stem), run the pipeline, on a missing
recipe unlink the images at their original rasterization paths
(`missing_ok=True`) and write nothing, otherwise save the JSON next to the
(possibly renamed) PDF.  `process_pdf` itself has no `try`: when the
pipeline raises (stale-path encode) or the JSON write raises
(`o.writeFails`), the exception propagates past the cleanup loop to
`process_all`'s `except`, so no unlink happens and no record is written. -/
def process_pdf (o : Oracles) (cfg : Config) (fs : FS) (pdfPath : PathName) :
    ProcOut :=
  if o.pages pdfPath = 0 then ⟨none, fs, [], none, false⟩
  else
    let imgs := imageTargets pdfPath.stem (o.pages pdfPath)
    let an := analyze_images_with_actions o cfg imgs pdfPath
      (List.foldl addFile fs imgs)
    if an.raised then ⟨none, an.fs, imgs, some an, true⟩
    else
      match an.recipe with
      | none => ⟨none, List.foldl removeFile an.fs imgs, imgs, some an, false⟩
      | some rj =>
        if o.writeFails then ⟨none, an.fs, imgs, some an, true⟩
        else
          let sv := save_recipe_json an.fs an.updatedPdf
          ⟨some (sv.1, rj), sv.2, imgs, some an, false⟩

/-- List-prefix test used for the glob `{base_name}*.jpg`. -/
def isPrefixL : List Char → List Char → Bool
  | [], _ => true
  | _ :: _, [] => false
  | a :: xs, b :: ys => decide (a = b) && isPrefixL xs ys

/-- Any `{base}*.jpg` sibling exists. -/
def hasJpgSibling (fs : FS) (base : String) : Bool :=
  fs.any (fun f => decide (f.ext = "jpg") && isPrefixL base.data f.stem.data)

/-- The `{base}.json` sibling exists. -/
def hasJsonSibling (fs : FS) (base : String) : Bool :=
  fs.any (fun f => decide (f = ⟨base, "json"⟩))

/-- Eligibility test of `find_unprocessed_pdfs` for one PDF. -/
def eligiblePdf (fs : FS) (p : PathName) : Bool :=
  !(hasJpgSibling fs p.stem || hasJsonSibling fs p.stem)

/-- Embedding of `find_unprocessed_pdfs`: the PDFs with no accompanying
JPG or JSON files. -/
def find_unprocessed_pdfs (fs : FS) : List PathName :=
  (fs.filter (fun p => decide (p.ext = "pdf"))).filter (eligiblePdf fs)

/-- Embedding of `process_all`: process every unprocessed PDF sequentially
(each document with its own oracle bundle), returning the number of
documents processed and the final directory contents.  Its per-document
`try`/`except` catches any exception propagated out of `process_pdf`
(counting the document failed) and moves on, which the fold models by
continuing from that run's directory contents. -/
def process_all (o : PathName → Oracles) (cfg : Config) (fs : FS) :
    Nat × FS :=
  let docs := find_unprocessed_pdfs fs
  docs.foldl (fun acc p => (acc.1 + 1, (process_pdf (o p) cfg acc.2 p).fs))
    (0, fs)

/- ------------------------------------------------------------------ -/
/- Library lemmas about the string primitives                          -/
/- ------------------------------------------------------------------ -/

theorem mem_dropLeading {p : Char → Bool} {c : Char} :
    ∀ {l : List Char}, c ∈ dropLeading p l → c ∈ l := by
  intro l
  induction l with
  | nil => intro h; simp [dropLeading] at h
  | cons a rest ih =>
    intro h
    by_cases hp : p a
    · rw [dropLeading, if_pos hp] at h
      exact List.mem_cons_of_mem _ (ih h)
    · rwa [dropLeading, if_neg hp] at h

theorem mem_dropTrailing {p : Char → Bool} {c : Char} :
    ∀ {l : List Char}, c ∈ dropTrailing p l → c ∈ l := by
  intro l
  induction l with
  | nil => intro h; simp [dropTrailing] at h
  | cons a rest ih =>
    intro h
    rw [dropTrailing] at h
    cases hdt : dropTrailing p rest with
    | nil =>
      rw [hdt] at h
      by_cases hp : p a
      · simp [if_pos hp] at h
      · rw [if_neg hp] at h
        simp at h
        simp [h]
    | cons b bs =>
      rw [hdt] at h
      rcases List.mem_cons.mp h with h1 | h1
      · simp [h1]
      · exact List.mem_cons_of_mem _ (ih (hdt ▸ h1))

theorem mem_stripBy {p : Char → Bool} {c : Char} {l : List Char}
    (h : c ∈ stripBy p l) : c ∈ l :=
  mem_dropLeading (mem_dropTrailing h)

theorem head?_dropLeading {p : Char → Bool} {c : Char} :
    ∀ {l : List Char}, (dropLeading p l).head? = some c → p c = false := by
  intro l
  induction l with
  | nil => intro h; simp [dropLeading] at h
  | cons a rest ih =>
    intro h
    by_cases hp : p a
    · rw [dropLeading, if_pos hp] at h
      exact ih h
    · rw [dropLeading, if_neg hp] at h
      simp at h
      rw [← h]
      exact Bool.of_not_eq_true hp

theorem head?_dropTrailing {p : Char → Bool} {c : Char} {l : List Char}
    (h : (dropTrailing p l).head? = some c) : l.head? = some c := by
  cases l with
  | nil => simp [dropTrailing] at h
  | cons a rest =>
    rw [dropTrailing] at h
    cases hdt : dropTrailing p rest with
    | nil =>
      rw [hdt] at h
      by_cases hp : p a
      · simp [if_pos hp] at h
      · rw [if_neg hp] at h
        simpa using h
    | cons b bs =>
      rw [hdt] at h
      simpa using h

theorem head?_stripBy {p : Char → Bool} {c : Char} {l : List Char}
    (h : (stripBy p l).head? = some c) : p c = false :=
  head?_dropLeading (head?_dropTrailing h)

theorem mem_collapseWSAux {c : Char} :
    ∀ {l : List Char} {b : Bool}, c ∈ collapseWSAux b l →
      c = '_' ∨ (c ∈ l ∧ pyIsSpace c = false) := by
  intro l
  induction l with
  | nil => intro b h; simp [collapseWSAux] at h
  | cons a rest ih =>
    intro b h
    rw [collapseWSAux] at h
    by_cases hs : pyIsSpace a
    · rw [if_pos hs] at h
      by_cases hb : b
      · rcases ih (hb ▸ h) with h1 | ⟨h1, h2⟩
        · exact Or.inl h1
        · exact Or.inr ⟨List.mem_cons_of_mem _ h1, h2⟩
      · rw [if_neg hb] at h
        rcases List.mem_cons.mp h with h1 | h1
        · exact Or.inl h1
        · rcases ih h1 with h2 | ⟨h2, h3⟩
          · exact Or.inl h2
          · exact Or.inr ⟨List.mem_cons_of_mem _ h2, h3⟩
    · rw [if_neg hs] at h
      rcases List.mem_cons.mp h with h1 | h1
      · subst h1
        exact Or.inr ⟨List.mem_cons_self _ _, Bool.of_not_eq_true hs⟩
      · rcases ih h1 with h2 | ⟨h2, h3⟩
        · exact Or.inl h2
        · exact Or.inr ⟨List.mem_cons_of_mem _ h2, h3⟩

theorem head?_take50 {l : List Char} {c : Char}
    (h : (l.take 50).head? = some c) : l.head? = some c := by
  cases l with
  | nil => simp at h
  | cons a rest => simpa using h

/- ------------------------------------------------------------------ -/
/- Slug character classes                                              -/
/- ------------------------------------------------------------------ -/

/-- The characters the (amended) slug safety property allows: lowercase
letters, digits, underscore, hyphen. -/
def slugChar (c : Char) : Bool :=
  c.isLower || c.isDigit || decide (c = '_') || decide (c = '-')

/-- The characters that can reach the `.lower()` step. -/
def preLowerChars : List Char := '-' :: '_' :: wordChars

theorem toLower_slugChar : ∀ c ∈ preLowerChars, slugChar (Char.toLower c) = true := by
  decide

theorem toLower_not_underscore :
    ∀ c ∈ preLowerChars, c ≠ '_' → Char.toLower c ≠ '_' := by
  decide

theorem slugStage2_chars {l : List Char} {c : Char} (h : c ∈ slugStage2 l) :
    c ∈ preLowerChars := by
  rcases mem_collapseWSAux h with h1 | ⟨h1, h2⟩
  · rw [h1]; simp [preLowerChars]
  · have hf := List.mem_filter.mp h1
    have hk : keepChar c = true := hf.2
    rw [keepChar] at hk
    rcases Bool.or_eq_true_iff.mp hk with hk1 | hk2
    · rcases Bool.or_eq_true_iff.mp hk1 with hw | hsp
      · have : c ∈ wordChars := of_decide_eq_true hw
        simp [preLowerChars, this]
      · rw [h2] at hsp; simp at hsp
    · have : c = '-' := of_decide_eq_true hk2
      rw [this]; simp [preLowerChars]

theorem slugStage3_chars {l : List Char} {c : Char} (h : c ∈ slugStage3 l) :
    c ∈ preLowerChars :=
  slugStage2_chars (mem_stripBy h)

/- ------------------------------------------------------------------ -/
/- Claim C5                                                            -/
/- ------------------------------------------------------------------ -/

/-- A 51-character title: "a-", forty-seven further letters, then " b". -/
def c5Input : String := "a-aaaaaaaaaaaaaaaaaaaaaaaaaaaaaaaaaaaaaaaaaaaaaaa b"

/-- C5 counterexample: the claim says the slug contains only lowercase
alphanumerics and underscores (hyphens stripped to nothing) and has no
trailing underscore.  On this title the code keeps the hyphen (the regex
class `[^\w\s-]` retains `-`), and the 50-character truncation, applied
after `strip('_')`, leaves a trailing underscore. -/
theorem c5_hyphen_and_trailing_underscore :
    ('-' ∈ (make_unix_safe_filename c5Input).data) ∧
    (make_unix_safe_filename c5Input).data.getLast? = some '_' := by
  decide

/-- C5 (amended): for every title the derived slug is non-empty (falling
back to "unknown_recipe"), has length at most 50, contains only lowercase
alphanumerics, underscores and hyphens (hyphens are preserved, not
stripped), and never starts with an underscore; truncation to 50 characters
happens after underscore trimming, so a trailing underscore can remain. -/
theorem c5_slug_safety (title : String) :
    make_unix_safe_filename title ≠ "" ∧
    (make_unix_safe_filename title).data.length ≤ 50 ∧
    (∀ c ∈ (make_unix_safe_filename title).data, slugChar c = true) ∧
    (∀ c, (make_unix_safe_filename title).data.head? = some c → c ≠ '_') := by
  rw [make_unix_safe_filename]
  by_cases h0 : title = ""
  · rw [if_pos h0]
    exact ⟨by decide, by decide, by decide, by decide⟩
  · rw [if_neg h0]
    by_cases h1 : slugStage4 title.data = []
    · rw [if_pos h1]
      exact ⟨by decide, by decide, by decide, by decide⟩
    · rw [if_neg h1]
      refine ⟨?_, ?_, ?_, ?_⟩
      · intro hEq
        have hd : (slugStage4 title.data).take 50 = [] := congrArg String.data hEq
        rcases List.take_eq_nil_iff.mp hd with h | h
        · exact absurd h (by decide)
        · exact h1 h
      · show ((slugStage4 title.data).take 50).length ≤ 50
        rw [List.length_take]
        exact Nat.min_le_left _ _
      · intro c hc
        have hc4 : c ∈ slugStage4 title.data :=
          List.take_subset _ _ (by exact hc)
        rw [slugStage4] at hc4
        rcases List.mem_map.mp hc4 with ⟨c', hc', hlow⟩
        rw [← hlow]
        exact toLower_slugChar c' (slugStage3_chars hc')
      · intro c hc
        have hc4 : (slugStage4 title.data).head? = some c :=
          head?_take50 (by exact hc)
        cases hl3 : slugStage3 title.data with
        | nil => rw [slugStage4, hl3] at hc4; simp at hc4
        | cons c' t =>
          rw [slugStage4, hl3] at hc4
          simp at hc4
          have hmem : c' ∈ slugStage3 title.data := by
            rw [hl3]; exact List.mem_cons_self _ _
          have hhead : (slugStage3 title.data).head? = some c' := by
            rw [hl3]; rfl
          have hne : c' ≠ '_' := by
            have := head?_stripBy (p := isUnderscore) (c := c')
              (l := slugStage2 title.data) (by rw [← slugStage3]; exact hhead)
            intro hEq
            rw [hEq] at this
            simp [isUnderscore] at this
          rw [← hc4]
          exact toLower_not_underscore c' (slugStage3_chars hmem) hne

/-- C5 witness: the slug safety property instantiated at a concrete title. -/
theorem c5_slug_witness :
    make_unix_safe_filename "Chicken Soup" ≠ "" ∧
    (make_unix_safe_filename "Chicken Soup").data.length ≤ 50 ∧
    (∀ c ∈ (make_unix_safe_filename "Chicken Soup").data, slugChar c = true) ∧
    (∀ c, (make_unix_safe_filename "Chicken Soup").data.head? = some c → c ≠ '_') :=
  c5_slug_safety "Chicken Soup"

/- ------------------------------------------------------------------ -/
/- Claim C7                                                            -/
/- ------------------------------------------------------------------ -/

/-- C7: a category string in the fixed six-value enum passes through the
Stage-1 validation unchanged; any other string is coerced to "Dinner"; in
particular the validated category is always a member of the enum. -/
theorem c7_category_validation (c : String) :
    (c ∈ validCategories → validateCategory c = c) ∧
    (c ∉ validCategories → validateCategory c = "Dinner") ∧
    validateCategory c ∈ validCategories := by
  refine ⟨fun h => ?_, fun h => ?_, ?_⟩
  · rw [validateCategory, if_pos h]
  · rw [validateCategory, if_neg h]
  · rw [validateCategory]
    split
    · assumption
    · decide

/-- C7 witness: the validation evaluated at a member ("Lunch") and a
non-member ("brunch") of the enum. -/
theorem c7_category_witness :
    ((("Lunch" : String) ∈ validCategories → validateCategory "Lunch" = "Lunch") ∧
     (("Lunch" : String) ∉ validCategories → validateCategory "Lunch" = "Dinner") ∧
     validateCategory "Lunch" ∈ validCategories) ∧
    ((("brunch" : String) ∈ validCategories → validateCategory "brunch" = "brunch") ∧
     (("brunch" : String) ∉ validCategories → validateCategory "brunch" = "Dinner") ∧
     validateCategory "brunch" ∈ validCategories) :=
  ⟨c7_category_validation "Lunch", c7_category_validation "brunch"⟩

/- ------------------------------------------------------------------ -/
/- Concrete scenarios                                                  -/
/- ------------------------------------------------------------------ -/

def cfg0 : Config := ⟨none, false⟩

def pdfDoc : PathName := ⟨"doc", "pdf"⟩

def goodBox : BBox := ⟨0, 0, 10, 10⟩

/-- A degenerate bounding box: `right <= left`. -/
def degBox : BBox := ⟨0, 10, 20, 5⟩

/-- A fully successful two-page run: the Stage-1 response carries no JSON,
so the raw text "My Pie" becomes the title; Stage 2 detects two good boxes;
Stages 3 and 4 succeed. -/
def oC1 : Oracles :=
  { pages := fun _ => 2
    a1Response := some "My Pie"
    parseTitle := fun _ => none
    a2Response := some "\x7bB\x7d"
    parseBoxes := fun s =>
      if s = "\x7bB\x7d" then some ⟨some goodBox, some goodBox⟩ else none
    a3Response := some "Step 1"
    a4Response := some "[]"
    parseIngredients := fun s => if s = "[]" then some [] else none
    renameFails := fun _ _ => false
    writeFails := false
    now := "" }

def c1Imgs : List PathName := imageTargets "doc" 2

def c1Run : AnalyzeOut :=
  analyze_images_with_actions oC1 cfg0 c1Imgs pdfDoc
    (List.foldl addFile [pdfDoc] c1Imgs)

/- ------------------------------------------------------------------ -/
/- Claim C1                                                            -/
/- ------------------------------------------------------------------ -/

/-- C1: on a two-page document where Stage 2 ran and succeeded (both crop
artifacts were produced and the pipeline completed), the images Actions 3
and 4 encode for their model calls are the full second page image
(`my_pie_page2.jpg`), not the `my_pie_instructions.jpg` /
`my_pie_ingredients.jpg` crop artifacts: the code passes
`renamed_image_paths` to both actions and never uses the crop paths,
contradicting the claim and the code's own docstrings ("Extract recipe
instructions from cropped image"). -/
theorem c1_stage34_full_page_input :
    c1Run.instructionsCrop = some ⟨"my_pie_instructions", "jpg"⟩ ∧
    c1Run.ingredientsCrop = some ⟨"my_pie_ingredients", "jpg"⟩ ∧
    c1Run.a3Image = some ⟨"my_pie_page2", "jpg"⟩ ∧
    c1Run.a4Image = some ⟨"my_pie_page2", "jpg"⟩ ∧
    c1Run.a3Image ≠ c1Run.instructionsCrop ∧
    c1Run.a4Image ≠ c1Run.ingredientsCrop ∧
    c1Run.recipe.isSome = true := by
  decide

/- ------------------------------------------------------------------ -/
/- Claim C2, counterexample part                                       -/
/- ------------------------------------------------------------------ -/

/-- C2 counterexample: for a parsed box with `right <= left` the crop is
attempted (the crop call on the degenerate box is the first operation
issued), so the box is not "rejected before any crop operation is
attempted"; the attempt then fails and no crop path is returned. -/
theorem c2_crop_attempted_counterexample :
    degBox.right ≤ degBox.left ∧
    (crop_images_from_bounding_boxes ⟨some degBox, some goodBox⟩ "doc" []).events.head? =
      some (CropEvent.cropAttempt "ingredients" degBox) ∧
    (crop_images_from_bounding_boxes ⟨some degBox, some goodBox⟩ "doc" []).ingredientsPath = none ∧
    (crop_images_from_bounding_boxes ⟨some degBox, some goodBox⟩ "doc" []).instructionsPath = none := by
  decide

/- ------------------------------------------------------------------ -/
/- Claim C3, counterexample part                                       -/
/- ------------------------------------------------------------------ -/

/-- A single-page run in which the title "My Pie" is extracted, the PDF
rename succeeds, but the rename of the page image `doc.jpg` fails. -/
def oC3 : Oracles :=
  { oC1 with
    pages := fun _ => 1
    a2Response := none
    renameFails := fun a _ => decide (a = (⟨"doc", "jpg"⟩ : PathName)) }

def c3Run : AnalyzeOut :=
  analyze_images_with_actions oC3 cfg0 (imageTargets "doc" 1) pdfDoc
    (List.foldl addFile [pdfDoc] (imageTargets "doc" 1))

/-- C3 counterexample: the image rename fails after the PDF was already
renamed on disk (`my_pie.pdf` exists), yet Action 1 reports a missing title
(soft failure) and the pipeline continues: Stage 2 runs and encodes the
pre-rename page image `doc.jpg` — contradicting "no later stage runs" and
"no later stage ever operates on a stale (pre-rename) path". -/
theorem c3_rename_failure_counterexample :
    (action_1_extract_meal_title oC3 (imageTargets "doc" 1) pdfDoc
      (List.foldl addFile [pdfDoc] (imageTargets "doc" 1))).title = none ∧
    (⟨"my_pie", "pdf"⟩ : PathName) ∈ c3Run.fs ∧
    c3Run.a2Image = some ⟨"doc", "jpg"⟩ ∧
    c3Run.renames = [(⟨"doc", "pdf"⟩, ⟨"my_pie", "pdf"⟩)] := by
  decide

/- ------------------------------------------------------------------ -/
/- Claim C4, counterexample part                                       -/
/- ------------------------------------------------------------------ -/

/-- A single-page run: Stage 1 renames everything to `my_pie`, then Stage 2
hard-fails (model call raises). -/
def oC4 : Oracles :=
  { oC1 with
    pages := fun _ => 1
    a2Response := none }

/-- A three-page run where Stage 1 renames the PDF and pages 1–2 but the
page-3 rename fails: Action 1 reports a soft failure (original paths),
Action 2 then encodes the stale pre-rename `doc_page2.jpg` outside its
try block, and the uncaught FileNotFoundError escapes `process_pdf` before
the cleanup loop. -/
def oC4r : Oracles :=
  { oC1 with
    pages := fun _ => 3
    renameFails := fun a _ => decide (a = (⟨"doc_page3", "jpg"⟩ : PathName)) }

/-- C4 counterexample: (first scenario) after a non-raising hard failure
the cleanup unlinks the images at their original rasterization paths only,
so the renamed artifact `my_pie.jpg` survives in the directory — the
claim's "every rasterized image artifact created for that document
(including any renamed by Stage 1) is deleted" is false.  (Second
scenario) after a partial Stage-1 rename, Action 2's encode of the stale
second page raises outside its try block; the exception escapes to the
batch driver, the cleanup loop never runs, and even the never-renamed
original-path image `doc_page3.jpg` survives.  In both scenarios no JSON
record is written. -/
theorem c4_renamed_artifact_survives :
    ((process_pdf oC4 cfg0 [pdfDoc] pdfDoc).written = none ∧
      (⟨"my_pie", "jpg"⟩ : PathName) ∈ (process_pdf oC4 cfg0 [pdfDoc] pdfDoc).fs ∧
      (⟨"doc", "jpg"⟩ : PathName) ∉ (process_pdf oC4 cfg0 [pdfDoc] pdfDoc).fs) ∧
    ((process_pdf oC4r cfg0 [pdfDoc] pdfDoc).written = none ∧
      (process_pdf oC4r cfg0 [pdfDoc] pdfDoc).raised = true ∧
      (⟨"doc_page3", "jpg"⟩ : PathName) ∈
        (process_pdf oC4r cfg0 [pdfDoc] pdfDoc).fs ∧
      (⟨"my_pie_page1", "jpg"⟩ : PathName) ∈
        (process_pdf oC4r cfg0 [pdfDoc] pdfDoc).fs) := by
  decide

/- ------------------------------------------------------------------ -/
/- Claim C8, counterexample part                                       -/
/- ------------------------------------------------------------------ -/

/-- A run whose Stage 1 soft-fails (empty model response, so no rename) and
whose Stage 2 hard-fails: the cleanup then removes every artifact, leaving
the document exactly as before the run. -/
def oC8 : Oracles :=
  { oC1 with
    pages := fun _ => 1
    a1Response := some ""
    a2Response := none }

/-- C8 counterexample: with one PDF whose processing hard-fails without a
rename, the first batch run processes one document and leaves no image or
JSON sibling, so the second batch run over the resulting directory
processes one document again — not zero. -/
theorem c8_second_run_counterexample :
    (process_all (fun _ => oC8) cfg0 [pdfDoc]).1 = 1 ∧
    (process_all (fun _ => oC8) cfg0
      (process_all (fun _ => oC8) cfg0 [pdfDoc]).2).1 = 1 := by
  decide

/- ------------------------------------------------------------------ -/
/- Helper lemmas about Action 1                                        -/
/- ------------------------------------------------------------------ -/

theorem imageTargets_length (safe : String) (n : Nat) :
    (imageTargets safe n).length = n := by
  rw [imageTargets]
  split
  · simp [*]
  · simp

theorem renameEach_nofail {rf : PathName → PathName → Bool}
    (hrf : ∀ a b, rf a b = false) :
    ∀ (ps : List (PathName × PathName)) (fs : FS),
      ∃ fs2, renameEach rf ps fs = .ok (ps.map Prod.snd, fs2, ps) := by
  intro ps
  induction ps with
  | nil => intro fs; exact ⟨fs, rfl⟩
  | cons hd tl ih =>
    intro fs
    obtain ⟨a, b⟩ := hd
    obtain ⟨fs2, h2⟩ := ih (renameFS fs a b)
    refine ⟨fs2, ?_⟩
    rw [renameEach, hrf a b]
    simp [h2]

/-- When extraction succeeds and no rename fails, Action 1 returns the
extracted title and the renamed paths. -/
theorem action_1_success (o : Oracles) (imgs : List PathName) (p : PathName)
    (fs : FS) (td : TitleData) (hx : a1Extract o = some td)
    (h4 : ∀ a b, o.renameFails a b = false) :
    (action_1_extract_meal_title o imgs p fs).title = some td.title ∧
    (action_1_extract_meal_title o imgs p fs).pdfPath =
      ⟨make_unix_safe_filename td.title, "pdf"⟩ ∧
    (action_1_extract_meal_title o imgs p fs).imagePaths =
      imageTargets (make_unix_safe_filename td.title) imgs.length := by
  obtain ⟨fs2, hre⟩ := renameEach_nofail h4
    (imgs.zip (imageTargets (make_unix_safe_filename td.title) imgs.length)) fs
  have hmap : (imgs.zip
      (imageTargets (make_unix_safe_filename td.title) imgs.length)).map Prod.snd =
      imageTargets (make_unix_safe_filename td.title) imgs.length :=
    List.map_snd_zip _ _ (by rw [imageTargets_length])
  rw [action_1_extract_meal_title, hx]
  by_cases hp : p = (⟨make_unix_safe_filename td.title, "pdf"⟩ : PathName)
  · subst hp
    simp [hre, hmap]
  · obtain ⟨fs3, hre2⟩ := renameEach_nofail h4
      (imgs.zip (imageTargets (make_unix_safe_filename td.title) imgs.length))
      (renameFS fs p ⟨make_unix_safe_filename td.title, "pdf"⟩)
    simp [if_neg hp, h4, hre2, hmap]

/- ------------------------------------------------------------------ -/
/- Claim C10                                                           -/
/- ------------------------------------------------------------------ -/

/-- C10: when the Stage-1 model response is non-empty after stripping and
no JSON object can be recovered from it (either no opening brace is found,
or the bracketed substring fails to parse — the hypothesis `h3` covers
both, as the composition of the brace heuristic and the parse), the whole
raw (stripped) response becomes the title: extraction succeeds (no soft
failure) with default metadata, and — renames succeeding — the document and
images are renamed to the slug derived from that raw text. -/
theorem c10_raw_title_fallback (o : Oracles) (imgs : List PathName)
    (p : PathName) (fs : FS) (raw : String)
    (h1 : o.a1Response = some raw)
    (h2 : pyStripS raw ≠ "")
    (h3 : (extractDelim '\x7b' '\x7d' (pyStripS raw).data).bind
      (fun js => o.parseTitle (String.mk js)) = none)
    (h4 : ∀ a b, o.renameFails a b = false) :
    a1Extract o = some ⟨pyStripS raw, "", "Dinner", []⟩ ∧
    (action_1_extract_meal_title o imgs p fs).title = some (pyStripS raw) ∧
    (action_1_extract_meal_title o imgs p fs).pdfPath =
      ⟨make_unix_safe_filename (pyStripS raw), "pdf"⟩ ∧
    (action_1_extract_meal_title o imgs p fs).imagePaths =
      imageTargets (make_unix_safe_filename (pyStripS raw)) imgs.length := by
  have hx : a1Extract o = some ⟨pyStripS raw, "", "Dinner", []⟩ := by
    simp only [a1Extract, h1]
    rw [if_neg h2]
    cases hed : extractDelim '\x7b' '\x7d' (pyStripS raw).data with
    | none =>
      simp only [hed]
      rw [if_neg h2]
      rfl
    | some js =>
      rw [hed] at h3
      simp at h3
      simp only [hed, h3]
      rw [if_neg h2]
      rfl
  obtain ⟨ht, hpdf, himgs⟩ := action_1_success o imgs p fs _ hx h4
  exact ⟨hx, ht, hpdf, himgs⟩

/-- A concrete instance for C10: a prose-only model response with a brace
but no parseable JSON. -/
def oC10 : Oracles :=
  { oC1 with
    pages := fun _ => 1
    a1Response := some "  Sure! The recipe is \x7bMy Pie."
    parseTitle := fun _ => none }

/-- C10 witness: the fallback theorem applied to the concrete response,
with all hypotheses discharged by evaluation. -/
theorem c10_raw_title_witness :
    a1Extract oC10 = some ⟨pyStripS "  Sure! The recipe is \x7bMy Pie.", "", "Dinner", []⟩ ∧
    (action_1_extract_meal_title oC10 [⟨"doc", "jpg"⟩] pdfDoc [pdfDoc, ⟨"doc", "jpg"⟩]).title =
      some (pyStripS "  Sure! The recipe is \x7bMy Pie.") ∧
    (action_1_extract_meal_title oC10 [⟨"doc", "jpg"⟩] pdfDoc [pdfDoc, ⟨"doc", "jpg"⟩]).pdfPath =
      ⟨make_unix_safe_filename (pyStripS "  Sure! The recipe is \x7bMy Pie."), "pdf"⟩ ∧
    (action_1_extract_meal_title oC10 [⟨"doc", "jpg"⟩] pdfDoc [pdfDoc, ⟨"doc", "jpg"⟩]).imagePaths =
      imageTargets (make_unix_safe_filename (pyStripS "  Sure! The recipe is \x7bMy Pie."))
        ([⟨"doc", "jpg"⟩] : List PathName).length :=
  c10_raw_title_fallback oC10 [⟨"doc", "jpg"⟩] pdfDoc [pdfDoc, ⟨"doc", "jpg"⟩]
    "  Sure! The recipe is \x7bMy Pie." (by rfl) (by decide) (by decide)
    (fun a b => rfl)

/- ------------------------------------------------------------------ -/
/- Claim C2, amended part                                              -/
/- ------------------------------------------------------------------ -/

theorem cropOne_degenerate (region : String) (b : BBox) (target : PathName)
    (fs : FS) (hd : b.right ≤ b.left ∨ b.bottom ≤ b.top) :
    cropOne region b target fs = .error (fs, [CropEvent.cropAttempt region b]) ∨
    cropOne region b target fs =
      .error (fs, [CropEvent.cropAttempt region b, CropEvent.saveAttempt target]) := by
  rw [cropOne]
  by_cases h1 : b.right < b.left ∨ b.bottom < b.top
  · rw [if_pos h1]
    exact Or.inl rfl
  · have h2 : b.right = b.left ∨ b.bottom = b.top := by
      push_neg at h1
      omega
    rw [if_neg h1, if_pos h2]
    exact Or.inr rfl

theorem crop_images_degenerate (boxes : BBoxes) (safe : String) (fs : FS)
    (b : BBox) (hb : boxes.ingredients = some b)
    (hd : b.right ≤ b.left ∨ b.bottom ≤ b.top) :
    (crop_images_from_bounding_boxes boxes safe fs).ingredientsPath = none ∧
    (crop_images_from_bounding_boxes boxes safe fs).instructionsPath = none ∧
    CropEvent.cropAttempt "ingredients" b ∈
      (crop_images_from_bounding_boxes boxes safe fs).events := by
  rw [crop_images_from_bounding_boxes, hb]
  rcases cropOne_degenerate "ingredients" b ⟨safe ++ "_ingredients", "jpg"⟩ fs hd with h | h
  · simp [h]
  · simp [h]

/-- C2 (amended): a bounding box parsed in Stage 2 with `right <= left` or
`bottom <= top` is not rejected before a crop is attempted; instead the
attempted crop/save on it raises (external cropper failure), the exception
is caught, no crop path is produced, and the document hard-fails: the
pipeline produces no recipe.  (Stated for a degenerate ingredients box, the
first one processed; the instructions box behaves symmetrically.) -/
theorem c2_degenerate_box_hard_failure (o : Oracles) (cfg : Config)
    (imgs : List PathName) (p : PathName) (fs : FS) (boxes : BBoxes) (b : BBox)
    (hb : boxes.ingredients = some b)
    (hd : b.right ≤ b.left ∨ b.bottom ≤ b.top)
    (ha2 : action_2_detect_bounding_boxes o
      (action_1_extract_meal_title o imgs p fs).imagePaths
      (action_1_extract_meal_title o imgs p fs).fs = .ok (some boxes))
    (hm : maxActionStops cfg 2 = false)
    (hs : cfg.skipAction2 = false) :
    (analyze_images_with_actions o cfg imgs p fs).recipe = none ∧
    (analyze_images_with_actions o cfg imgs p fs).ingredientsCrop = none ∧
    (analyze_images_with_actions o cfg imgs p fs).instructionsCrop = none ∧
    CropEvent.cropAttempt "ingredients" b ∈
      (analyze_images_with_actions o cfg imgs p fs).cropEvents := by
  have key : ∀ (safe : String) (fsx : FS),
      (crop_images_from_bounding_boxes boxes safe fsx).ingredientsPath = none ∧
      (crop_images_from_bounding_boxes boxes safe fsx).instructionsPath = none ∧
      CropEvent.cropAttempt "ingredients" b ∈
        (crop_images_from_bounding_boxes boxes safe fsx).events :=
    fun safe fsx => crop_images_degenerate boxes safe fsx b hb hd
  simp only [analyze_images_with_actions, hm, hs, ha2, Bool.false_eq_true,
    if_false]
  split
  · rename_i x y heq
    rw [(key _ _).2.1] at heq
    exact absurd heq (by simp)
  · exact ⟨rfl, (key _ _).1, (key _ _).2.1, (key _ _).2.2⟩

/-- A run whose Stage-2 parse yields a degenerate ingredients box. -/
def oC2 : Oracles :=
  { oC1 with
    pages := fun _ => 1
    a1Response := some ""
    parseBoxes := fun s =>
      if s = "\x7bB\x7d" then some ⟨some degBox, some goodBox⟩ else none }

/-- C2 witness: the degenerate-box hard-failure theorem applied to a
concrete run. -/
theorem c2_degenerate_box_witness :
    (analyze_images_with_actions oC2 cfg0 (imageTargets "doc" 1) pdfDoc
      (List.foldl addFile [pdfDoc] (imageTargets "doc" 1))).recipe = none ∧
    (analyze_images_with_actions oC2 cfg0 (imageTargets "doc" 1) pdfDoc
      (List.foldl addFile [pdfDoc] (imageTargets "doc" 1))).ingredientsCrop = none ∧
    (analyze_images_with_actions oC2 cfg0 (imageTargets "doc" 1) pdfDoc
      (List.foldl addFile [pdfDoc] (imageTargets "doc" 1))).instructionsCrop = none ∧
    CropEvent.cropAttempt "ingredients" degBox ∈
      (analyze_images_with_actions oC2 cfg0 (imageTargets "doc" 1) pdfDoc
        (List.foldl addFile [pdfDoc] (imageTargets "doc" 1))).cropEvents :=
  c2_degenerate_box_hard_failure oC2 cfg0 (imageTargets "doc" 1) pdfDoc
    (List.foldl addFile [pdfDoc] (imageTargets "doc" 1))
    ⟨some degBox, some goodBox⟩ degBox (by decide) (by decide) (by rfl)
    (by decide) (by decide)

/- ------------------------------------------------------------------ -/
/- Helper lemmas about the pipeline driver                             -/
/- ------------------------------------------------------------------ -/

theorem analyzeTail_preserves (o : Oracles) (cfg : Config)
    (a1Imgs : List PathName) (title : Option String) (d c : String)
    (tg : List String) (up : PathName) (st : AnalyzeOut) :
    (analyzeTail o cfg a1Imgs title d c tg up st).a2Image = st.a2Image ∧
    (analyzeTail o cfg a1Imgs title d c tg up st).updatedPdf = st.updatedPdf ∧
    (analyzeTail o cfg a1Imgs title d c tg up st).fs = st.fs ∧
    (analyzeTail o cfg a1Imgs title d c tg up st).renames = st.renames ∧
    (analyzeTail o cfg a1Imgs title d c tg up st).a1Title = st.a1Title := by
  rw [analyzeTail]
  dsimp only
  repeat' split
  all_goals exact ⟨rfl, rfl, rfl, rfl, rfl⟩

theorem analyzeTail_recipe (o : Oracles) (cfg : Config)
    (a1Imgs : List PathName) (title : Option String) (d c : String)
    (tg : List String) (up : PathName) (st : AnalyzeOut) (rj : RecipeJson)
    (hst : st.recipe = none)
    (h : (analyzeTail o cfg a1Imgs title d c tg up st).recipe = some rj) :
    ∃ ins ing, rj = action_5_combine_outputs title d c tg ins ing
      a1Imgs up o.now := by
  rw [analyzeTail] at h
  by_cases h3 : maxActionStops cfg 3 = true
  · rw [if_pos h3, hst] at h
    exact absurd h (by simp)
  · rw [if_neg h3] at h
    cases ha3 : action_3_extract_instructions o a1Imgs st.fs with
    | error e =>
      rw [ha3] at h
      dsimp only at h
      rw [hst] at h
      exact absurd h (by simp)
    | ok instrs =>
      rw [ha3] at h
      dsimp only at h
      by_cases h4 : maxActionStops cfg 4 = true
      · rw [if_pos h4] at h
        dsimp only at h
        rw [hst] at h
        exact absurd h (by simp)
      · rw [if_neg h4] at h
        cases ha4 : action_4_extract_ingredients o a1Imgs st.fs with
        | error e =>
          rw [ha4] at h
          dsimp only at h
          rw [hst] at h
          exact absurd h (by simp)
        | ok ingrs =>
          rw [ha4] at h
          dsimp only at h
          by_cases h5 : maxActionStops cfg 5 = true
          · rw [if_pos h5] at h
            dsimp only at h
            rw [hst] at h
            exact absurd h (by simp)
          · rw [if_neg h5] at h
            dsimp only at h
            exact ⟨_, _, (Option.some.inj h).symm⟩

/-- The `updatedPdf` the pipeline reports is the Stage-1 result (the
original path on soft failure, the renamed path on success). -/
theorem analyze_updatedPdf (o : Oracles) (cfg : Config)
    (imgs : List PathName) (p : PathName) (fs : FS) :
    (analyze_images_with_actions o cfg imgs p fs).updatedPdf =
      match (action_1_extract_meal_title o imgs p fs).title with
      | none => p
      | some _ => (action_1_extract_meal_title o imgs p fs).pdfPath := by
  rw [analyze_images_with_actions]
  dsimp only
  repeat' split
  all_goals first
    | rfl
    | exact (analyzeTail_preserves _ _ _ _ _ _ _ _ _).2.1

/-- The image Stage 2 encodes, whenever Stage 2 is reached and not skipped,
is the second-or-first of the Stage-1 result paths. -/
theorem analyze_a2Image (o : Oracles) (cfg : Config)
    (imgs : List PathName) (p : PathName) (fs : FS)
    (hm : maxActionStops cfg 2 = false)
    (hs : cfg.skipAction2 = false) :
    (analyze_images_with_actions o cfg imgs p fs).a2Image =
      secondOrFirst (action_1_extract_meal_title o imgs p fs).imagePaths := by
  rw [analyze_images_with_actions]
  rw [if_neg (by rw [hm]; exact Bool.false_ne_true)]
  rw [if_neg (by rw [hs]; exact Bool.false_ne_true)]
  dsimp only
  repeat' split
  all_goals first
    | rfl
    | exact (analyzeTail_preserves _ _ _ _ _ _ _ _ _).1

/- ------------------------------------------------------------------ -/
/- Claim C3, amended part                                              -/
/- ------------------------------------------------------------------ -/

/-- C3 (amended): when Stage 1 extracts a title but renaming the source
document fails, the exception is caught inside Stage 1 and reported as a
missing title — a soft failure, not a hard one: the returned state carries
the original (pre-rename) image and document paths, and the pipeline
continues: Stage 2 still runs, encoding the second-or-first of the
pre-rename image paths.  (The counterexample shows the same for a failing
image rename, with the PDF already renamed on disk.) -/
theorem c3_rename_failure_soft (o : Oracles) (cfg : Config)
    (imgs : List PathName) (p : PathName) (fs : FS) (td : TitleData)
    (hx : a1Extract o = some td)
    (hne : p ≠ ⟨make_unix_safe_filename td.title, "pdf"⟩)
    (hf : o.renameFails p ⟨make_unix_safe_filename td.title, "pdf"⟩ = true)
    (hm : maxActionStops cfg 2 = false)
    (hs : cfg.skipAction2 = false) :
    (action_1_extract_meal_title o imgs p fs).title = none ∧
    (action_1_extract_meal_title o imgs p fs).imagePaths = imgs ∧
    (action_1_extract_meal_title o imgs p fs).pdfPath = p ∧
    (analyze_images_with_actions o cfg imgs p fs).updatedPdf = p ∧
    (analyze_images_with_actions o cfg imgs p fs).a2Image = secondOrFirst imgs := by
  have ha1 : action_1_extract_meal_title o imgs p fs =
      ⟨none, none, none, none, imgs, p, fs, []⟩ := by
    rw [action_1_extract_meal_title, hx]
    simp [if_neg hne, hf]
  refine ⟨by rw [ha1], by rw [ha1], by rw [ha1], ?_, ?_⟩
  · rw [analyze_updatedPdf, ha1]
  · rw [analyze_a2Image o cfg imgs p fs hm hs, ha1]

/-- A run in which the title "My Pie" is extracted but the PDF rename
itself fails. -/
def oC3w : Oracles :=
  { oC1 with
    pages := fun _ => 1
    renameFails := fun a _ => decide (a = pdfDoc) }

/-- C3 witness: the soft-failure theorem applied to a concrete run with a
failing PDF rename. -/
theorem c3_rename_failure_witness :
    (action_1_extract_meal_title oC3w (imageTargets "doc" 1) pdfDoc
      (List.foldl addFile [pdfDoc] (imageTargets "doc" 1))).title = none ∧
    (action_1_extract_meal_title oC3w (imageTargets "doc" 1) pdfDoc
      (List.foldl addFile [pdfDoc] (imageTargets "doc" 1))).imagePaths =
      imageTargets "doc" 1 ∧
    (action_1_extract_meal_title oC3w (imageTargets "doc" 1) pdfDoc
      (List.foldl addFile [pdfDoc] (imageTargets "doc" 1))).pdfPath = pdfDoc ∧
    (analyze_images_with_actions oC3w cfg0 (imageTargets "doc" 1) pdfDoc
      (List.foldl addFile [pdfDoc] (imageTargets "doc" 1))).updatedPdf = pdfDoc ∧
    (analyze_images_with_actions oC3w cfg0 (imageTargets "doc" 1) pdfDoc
      (List.foldl addFile [pdfDoc] (imageTargets "doc" 1))).a2Image =
      secondOrFirst (imageTargets "doc" 1) :=
  c3_rename_failure_soft oC3w cfg0 (imageTargets "doc" 1) pdfDoc
    (List.foldl addFile [pdfDoc] (imageTargets "doc" 1))
    ⟨"My Pie", "", "Dinner", []⟩ (by decide) (by decide) (by decide)
    (by decide) (by decide)

/- ------------------------------------------------------------------ -/
/- Claim C6                                                            -/
/- ------------------------------------------------------------------ -/

/-- When Stage 1 recovers no title, the recipe (if one is produced at all)
is assembled from the original stem and the default metadata. -/
theorem analyze_recipe_soft (o : Oracles) (cfg : Config) (imgs : List PathName)
    (p : PathName) (fs : FS) (rj : RecipeJson)
    (hx : a1Extract o = none)
    (hr : (analyze_images_with_actions o cfg imgs p fs).recipe = some rj) :
    ∃ ins ing, rj = action_5_combine_outputs none "" "Dinner" [] ins ing
      imgs p o.now := by
  have ha1 : action_1_extract_meal_title o imgs p fs =
      ⟨none, none, none, none, imgs, p, fs, []⟩ := by
    rw [action_1_extract_meal_title, hx]
  rw [analyze_images_with_actions, ha1] at hr
  dsimp only at hr
  split at hr
  · exact absurd hr (by simp)
  · split at hr
    · exact analyzeTail_recipe _ _ _ _ _ _ _ _ _ _ rfl hr
    · split at hr
      · exact absurd hr (by simp)
      · exact absurd hr (by simp)
      · split at hr
        · exact analyzeTail_recipe _ _ _ _ _ _ _ _ _ _ rfl hr
        · exact absurd hr (by simp)

/-- C6: on a Stage-1 soft failure (no title recoverable: `a1Extract` yields
nothing, covering the empty-response, empty-parsed-title and model-call
exception paths, all of which return before any rename), no rename of the
document or images occurs and the directory is untouched by Stage 1; if the
pipeline completes, its single record carries the original document stem as
name, category "Dinner", empty description and no tags. -/
theorem c6_soft_failure_defaults (o : Oracles) (cfg : Config)
    (imgs : List PathName) (p : PathName) (fs : FS) (rj : RecipeJson)
    (hx : a1Extract o = none)
    (hr : (analyze_images_with_actions o cfg imgs p fs).recipe = some rj) :
    (action_1_extract_meal_title o imgs p fs).renames = [] ∧
    (action_1_extract_meal_title o imgs p fs).fs = fs ∧
    (analyze_images_with_actions o cfg imgs p fs).updatedPdf = p ∧
    rj.recipes.length = 1 ∧
    ∀ r ∈ rj.recipes, r.name = p.stem ∧ r.category = "Dinner" ∧
      r.description = "" ∧ r.tags = [] := by
  have ha1 : action_1_extract_meal_title o imgs p fs =
      ⟨none, none, none, none, imgs, p, fs, []⟩ := by
    rw [action_1_extract_meal_title, hx]
  obtain ⟨ins, ing, hrj⟩ := analyze_recipe_soft o cfg imgs p fs rj hx hr
  subst hrj
  refine ⟨by rw [ha1], by rw [ha1], by rw [analyze_updatedPdf, ha1], rfl, ?_⟩
  intro r hrmem
  simp only [action_5_combine_outputs, List.mem_singleton] at hrmem
  subst hrmem
  exact ⟨rfl, by simp, rfl, rfl⟩

/-- A run whose Stage-1 response is whitespace only (soft failure) and
which skips Stage 2, so the pipeline completes. -/
def cfgSkip : Config := ⟨none, true⟩

def oC6 : Oracles := { oC1 with a1Response := some "   " }

def itemC6 : RecipeItem :=
  { name := "doc"
    description := ""
    category := "Dinner"
    images := ["./doc_page1.jpg", "./doc_page2.jpg"]
    ingredients := []
    instructions := ["Step 1"]
    servings := 4
    defaultDuration := 2
    tags := [] }

def rjC6 : RecipeJson :=
  { version := 1
    exportDate := "Z"
    recipes := [itemC6] }

set_option maxRecDepth 2000 in
/-- C6 witness: the soft-failure theorem applied to a concrete completed
run. -/
theorem c6_soft_failure_witness :
    (action_1_extract_meal_title oC6 (imageTargets "doc" 2) pdfDoc
      (List.foldl addFile [pdfDoc] (imageTargets "doc" 2))).renames = [] ∧
    (action_1_extract_meal_title oC6 (imageTargets "doc" 2) pdfDoc
      (List.foldl addFile [pdfDoc] (imageTargets "doc" 2))).fs =
      List.foldl addFile [pdfDoc] (imageTargets "doc" 2) ∧
    (analyze_images_with_actions oC6 cfgSkip (imageTargets "doc" 2) pdfDoc
      (List.foldl addFile [pdfDoc] (imageTargets "doc" 2))).updatedPdf = pdfDoc ∧
    rjC6.recipes.length = 1 ∧
    ∀ r ∈ rjC6.recipes, r.name = pdfDoc.stem ∧ r.category = "Dinner" ∧
      r.description = "" ∧ r.tags = [] :=
  c6_soft_failure_defaults oC6 cfgSkip (imageTargets "doc" 2) pdfDoc
    (List.foldl addFile [pdfDoc] (imageTargets "doc" 2)) rjC6
    (by decide) (by rfl)

/- ------------------------------------------------------------------ -/
/- Filesystem membership lemmas                                        -/
/- ------------------------------------------------------------------ -/

theorem mem_addFile {fs : FS} {p q : PathName} :
    q ∈ addFile fs p ↔ q = p ∨ q ∈ fs := by
  rw [addFile]
  split
  · rename_i hin
    constructor
    · exact fun h => Or.inr h
    · rintro (rfl | h)
      · exact hin
      · exact h
  · exact List.mem_cons

theorem mem_removeFile {fs : FS} {p q : PathName} :
    q ∈ removeFile fs p ↔ q ∈ fs ∧ q ≠ p := by
  rw [removeFile]
  rw [List.mem_filter]
  simp

theorem mem_renameFS {fs : FS} {a b q : PathName}
    (h : q ∈ renameFS fs a b) : q = b ∨ q ∈ fs := by
  rw [renameFS] at h
  rcases mem_addFile.mp h with h1 | h1
  · exact Or.inl h1
  · exact Or.inr (mem_removeFile.mp h1).1

/- ------------------------------------------------------------------ -/
/- Claim C9                                                            -/
/- ------------------------------------------------------------------ -/

theorem action_5_fields (title : Option String) (d c : String)
    (tg : List String) (ins : Option (List String))
    (ing : Option (List Ingredient)) (imgsx : List PathName) (up : PathName)
    (now : String) :
    (action_5_combine_outputs title d c tg ins ing imgsx up now).version = 1 ∧
    (action_5_combine_outputs title d c tg ins ing imgsx up now).recipes.length = 1 ∧
    ∀ r ∈ (action_5_combine_outputs title d c tg ins ing imgsx up now).recipes,
      r.servings = 4 ∧ r.defaultDuration = 2 := by
  refine ⟨rfl, rfl, ?_⟩
  intro r hrmem
  simp only [action_5_combine_outputs, List.mem_singleton] at hrmem
  subst hrmem
  exact ⟨rfl, rfl⟩

/-- Any recipe the pipeline produces is an Action-5 combination (Stage 5 is
a pure function of the accumulated state: it consumes no model oracle). -/
theorem analyze_recipe_isAction5 (o : Oracles) (cfg : Config)
    (imgs : List PathName) (p : PathName) (fs : FS) (rj : RecipeJson)
    (hr : (analyze_images_with_actions o cfg imgs p fs).recipe = some rj) :
    ∃ title d c tg ins ing up,
      rj = action_5_combine_outputs title d c tg ins ing
        (action_1_extract_meal_title o imgs p fs).imagePaths up o.now := by
  rw [analyze_images_with_actions] at hr
  dsimp only at hr
  split at hr
  · exact absurd hr (by simp)
  · split at hr
    · obtain ⟨ins, ing, hsh⟩ := analyzeTail_recipe _ _ _ _ _ _ _ _ _ _ rfl hr
      exact ⟨_, _, _, _, _, _, _, hsh⟩
    · split at hr
      · exact absurd hr (by simp)
      · exact absurd hr (by simp)
      · split at hr
        · obtain ⟨ins, ing, hsh⟩ :=
            analyzeTail_recipe _ _ _ _ _ _ _ _ _ _ rfl hr
          exact ⟨_, _, _, _, _, _, _, hsh⟩
        · exact absurd hr (by simp)

/-- C9: whenever a document completes all five stages (a record is
written), the record envelope has version 1 and exactly one recipe, that
recipe has servings 4 and defaultDuration 2 regardless of the extracted
data (Stage 5 consumes no model response), and the record file is written
into the working directory as `{finalSlugOrOriginalStem}.json` — the stem
of the possibly renamed PDF. -/
theorem c9_assembly_record (o : Oracles) (cfg : Config) (fs : FS)
    (p : PathName) (jp : PathName) (rj : RecipeJson)
    (h : (process_pdf o cfg fs p).written = some (jp, rj)) :
    rj.version = 1 ∧
    rj.recipes.length = 1 ∧
    (∀ r ∈ rj.recipes, r.servings = 4 ∧ r.defaultDuration = 2) ∧
    (∃ a, (process_pdf o cfg fs p).an = some a ∧ a.recipe = some rj ∧
      jp = ⟨a.updatedPdf.stem, "json"⟩) ∧
    jp ∈ (process_pdf o cfg fs p).fs := by
  by_cases hn : o.pages p = 0
  · rw [process_pdf, if_pos hn] at h
    exact absurd h (by simp)
  · rw [process_pdf, if_neg hn] at h
    dsimp only at h
    split at h
    · exact absurd h (by simp)
    · rename_i hnr
      split at h
      · exact absurd h (by simp)
      · rename_i rj' heq
        split at h
        · exact absurd h (by simp)
        · rename_i hwf
          dsimp only [save_recipe_json] at h
          rw [Option.some.injEq, Prod.mk.injEq] at h
          obtain ⟨hjp, hrj⟩ := h
          subst hrj
          obtain ⟨title, d, c, tg, ins, ing, up, hshape⟩ :=
            analyze_recipe_isAction5 _ _ _ _ _ _ heq
          refine ⟨by rw [hshape]; exact rfl, by rw [hshape]; exact rfl,
            ?_, ?_, ?_⟩
          · intro r hrmem
            rw [hshape] at hrmem
            simp only [action_5_combine_outputs, List.mem_singleton] at hrmem
            subst hrmem
            exact ⟨rfl, rfl⟩
          · refine ⟨_, ?_, heq, ?_⟩
            · rw [process_pdf, if_neg hn]
              dsimp only
              rw [if_neg hnr, heq]
              dsimp only
              rw [if_neg hwf]
            · rw [← hjp]
          · rw [process_pdf, if_neg hn]
            dsimp only
            rw [if_neg hnr, heq]
            dsimp only
            rw [if_neg hwf]
            dsimp only [save_recipe_json]
            rw [← hjp]
            exact mem_addFile.mpr (Or.inl rfl)

def itemC9 : RecipeItem :=
  { name := "My Pie"
    description := ""
    category := "Dinner"
    images := ["./my_pie_page1.jpg", "./my_pie_page2.jpg"]
    ingredients := []
    instructions := ["Step 1"]
    servings := 4
    defaultDuration := 2
    tags := [] }

def rjC9 : RecipeJson :=
  { version := 1
    exportDate := "Z"
    recipes := [itemC9] }

set_option maxRecDepth 2000 in
/-- C9 witness: the assembly theorem applied to a concrete fully successful
run, which writes `my_pie.json`. -/
theorem c9_assembly_witness :
    rjC9.version = 1 ∧
    rjC9.recipes.length = 1 ∧
    (∀ r ∈ rjC9.recipes, r.servings = 4 ∧ r.defaultDuration = 2) ∧
    (∃ a, (process_pdf oC1 cfg0 [pdfDoc] pdfDoc).an = some a ∧
      a.recipe = some rjC9 ∧
      (⟨"my_pie", "json"⟩ : PathName) = ⟨a.updatedPdf.stem, "json"⟩) ∧
    (⟨"my_pie", "json"⟩ : PathName) ∈ (process_pdf oC1 cfg0 [pdfDoc] pdfDoc).fs :=
  c9_assembly_record oC1 cfg0 [pdfDoc] pdfDoc ⟨"my_pie", "json"⟩ rjC9 (by rfl)

/- ------------------------------------------------------------------ -/
/- Claim C4, amended part: no stage ever creates a JSON file, and the  -/
/- cleanup removes exactly the original rasterization paths            -/
/- ------------------------------------------------------------------ -/

theorem foldl_addFile_mem {q : PathName} :
    ∀ {l : List PathName} {fs : FS}, q ∈ List.foldl addFile fs l →
      q ∈ fs ∨ q ∈ l := by
  intro l
  induction l with
  | nil => intro fs h; exact Or.inl h
  | cons a tl ih =>
    intro fs h
    rcases ih h with h1 | h1
    · rcases mem_addFile.mp h1 with h2 | h2
      · exact Or.inr (h2 ▸ List.mem_cons_self _ _)
      · exact Or.inl h2
    · exact Or.inr (List.mem_cons_of_mem _ h1)

theorem mem_foldl_removeFile {q : PathName} :
    ∀ {l : List PathName} {fs : FS}, q ∈ List.foldl removeFile fs l → q ∈ fs := by
  intro l
  induction l with
  | nil => intro fs h; exact h
  | cons a tl ih =>
    intro fs h
    exact (mem_removeFile.mp (ih h)).1

theorem not_mem_foldl_removeFile {q : PathName} :
    ∀ {l : List PathName} {fs : FS}, q ∈ l →
      q ∉ List.foldl removeFile fs l := by
  intro l
  induction l with
  | nil => intro fs h; simp at h
  | cons a tl ih =>
    intro fs hq h
    rcases List.mem_cons.mp hq with h1 | h1
    · subst h1
      exact absurd (mem_removeFile.mp (mem_foldl_removeFile h)).2 (by simp)
    · exact ih h1 h

theorem imageTargets_ext {safe : String} {n : Nat} {q : PathName}
    (h : q ∈ imageTargets safe n) : q.ext = "jpg" := by
  rw [imageTargets] at h
  split at h
  · simp at h
    rw [h]
  · rcases List.mem_map.mp h with ⟨i, _, hq⟩
    rw [← hq]

/-- The directory contents carried by either outcome of the rename loop. -/
def renameEachFS : Except (FS × List (PathName × PathName))
    (List PathName × FS × List (PathName × PathName)) → FS
  | .ok (_, fs, _) => fs
  | .error (fs, _) => fs

theorem renameEach_json {rf : PathName → PathName → Bool} {f : PathName}
    (hf : f.ext = "json") :
    ∀ (ps : List (PathName × PathName)) (fs : FS),
      (∀ pr ∈ ps, (Prod.snd pr).ext ≠ "json") →
      f ∈ renameEachFS (renameEach rf ps fs) → f ∈ fs := by
  intro ps
  induction ps with
  | nil => intro fs _ h; exact h
  | cons hd tl ih =>
    intro fs hps h
    obtain ⟨a, b⟩ := hd
    rw [renameEach] at h
    by_cases hr : rf a b
    · rw [if_pos hr] at h
      exact h
    · rw [if_neg hr] at h
      have htl : ∀ pr ∈ tl, (Prod.snd pr).ext ≠ "json" :=
        fun pr hpr => hps pr (List.mem_cons_of_mem _ hpr)
      have hb : b.ext ≠ "json" := hps (a, b) (List.mem_cons_self _ _)
      have hstep : f ∈ renameFS fs a b → f ∈ fs := by
        intro hm
        rcases mem_renameFS hm with h1 | h1
        · exact absurd (h1 ▸ hf) hb
        · exact h1
      cases hrec : renameEach rf tl (renameFS fs a b) with
      | ok v =>
        obtain ⟨ps2, fs2, rs⟩ := v
        rw [hrec] at h
        exact hstep (ih (renameFS fs a b) htl (by rw [hrec]; exact h))
      | error e =>
        obtain ⟨fs2, rs⟩ := e
        rw [hrec] at h
        exact hstep (ih (renameFS fs a b) htl (by rw [hrec]; exact h))

theorem action_1_json (o : Oracles) (imgs : List PathName) (p : PathName)
    (fs : FS) {f : PathName} (hf : f.ext = "json")
    (h : f ∈ (action_1_extract_meal_title o imgs p fs).fs) : f ∈ fs := by
  rw [action_1_extract_meal_title] at h
  cases hx : a1Extract o with
  | none =>
    rw [hx] at h
    exact h
  | some td =>
    rw [hx] at h
    dsimp only at h
    have htargets : ∀ pr ∈ imgs.zip
        (imageTargets (make_unix_safe_filename td.title) imgs.length),
        (Prod.snd pr).ext ≠ "json" := by
      intro pr hpr
      have := (List.of_mem_zip hpr).2
      rw [imageTargets_ext this]
      decide
    have hpdfstep : ∀ fs1 : FS, f ∈ fs1 →
        (fs1 = fs ∨ fs1 = renameFS fs p ⟨make_unix_safe_filename td.title, "pdf"⟩) →
        f ∈ fs := by
      intro fs1 hm hcase
      rcases hcase with rfl | rfl
      · exact hm
      · rcases mem_renameFS hm with h1 | h1
        · rw [h1] at hf
          simp at hf
        · exact h1
    split at h
    · rename_i fs1 heq
      refine hpdfstep fs1 h ?_
      split at heq
      · exact absurd heq (by simp)
      · split at heq
        · rw [Except.error.injEq] at heq
          exact Or.inl heq.symm
        · exact absurd heq (by simp)
    · rename_i fs1 r1 heq
      split at h
      · rename_i fs2 r2 heq2
        have h1 : f ∈ fs1 := renameEach_json hf _ fs1 htargets
          (by rw [heq2]; exact h)
        refine hpdfstep fs1 h1 ?_
        split at heq
        · rw [Except.ok.injEq, Prod.mk.injEq] at heq
          exact Or.inl heq.1.symm
        · split at heq
          · exact absurd heq (by simp)
          · rw [Except.ok.injEq, Prod.mk.injEq] at heq
            exact Or.inr heq.1.symm
      · rename_i paths2 fs2 r2 heq2
        have h1 : f ∈ fs1 := renameEach_json hf _ fs1 htargets
          (by rw [heq2]; exact h)
        refine hpdfstep fs1 h1 ?_
        split at heq
        · rw [Except.ok.injEq, Prod.mk.injEq] at heq
          exact Or.inl heq.1.symm
        · split at heq
          · exact absurd heq (by simp)
          · rw [Except.ok.injEq, Prod.mk.injEq] at heq
            exact Or.inr heq.1.symm

/-- The directory contents carried by either outcome of one crop step. -/
def cropOneFS : Except (FS × List CropEvent) (PathName × FS × List CropEvent) → FS
  | .ok (_, fs, _) => fs
  | .error (fs, _) => fs

theorem cropOne_json {region : String} {b : BBox} {target : PathName}
    {fs : FS} {f : PathName} (hf : f.ext = "json") (ht : target.ext ≠ "json")
    (h : f ∈ cropOneFS (cropOne region b target fs)) : f ∈ fs := by
  rw [cropOne] at h
  split at h
  · exact h
  · split at h
    · exact h
    · rcases mem_addFile.mp h with h1 | h1
      · exact absurd (h1 ▸ hf) ht
      · exact h1

theorem crop_json (boxes : BBoxes) (safe : String) (fs : FS) {f : PathName}
    (hf : f.ext = "json")
    (h : f ∈ (crop_images_from_bounding_boxes boxes safe fs).fs) : f ∈ fs := by
  have hjpg : ("jpg" : String) ≠ "json" := by decide
  have hingTgt : (⟨safe ++ "_ingredients", "jpg"⟩ : PathName).ext ≠ "json" :=
    fun hx => hjpg hx
  have hinsTgt : (⟨safe ++ "_instructions", "jpg"⟩ : PathName).ext ≠ "json" :=
    fun hx => hjpg hx
  rw [crop_images_from_bounding_boxes] at h
  cases hbi : boxes.ingredients with
  | none =>
    rw [hbi] at h
    dsimp only at h
    cases hbs : boxes.instructions with
    | none =>
      rw [hbs] at h
      exact h
    | some b2 =>
      rw [hbs] at h
      dsimp only at h
      cases hc2 : cropOne "instructions" b2 ⟨safe ++ "_instructions", "jpg"⟩ fs with
      | ok v2 =>
        obtain ⟨q2, fs2, ev2⟩ := v2
        rw [hc2] at h
        dsimp only at h
        exact cropOne_json hf hinsTgt (by rw [hc2]; exact h)
      | error e2 =>
        obtain ⟨fs2, ev2⟩ := e2
        rw [hc2] at h
        dsimp only at h
        exact cropOne_json hf hinsTgt (by rw [hc2]; exact h)
  | some b =>
    rw [hbi] at h
    dsimp only at h
    cases hc : cropOne "ingredients" b ⟨safe ++ "_ingredients", "jpg"⟩ fs with
    | error e =>
      obtain ⟨fs1, ev⟩ := e
      rw [hc] at h
      dsimp only at h
      exact cropOne_json hf hingTgt (by rw [hc]; exact h)
    | ok v =>
      obtain ⟨q, fs1, ev1⟩ := v
      rw [hc] at h
      dsimp only at h
      have hfs1 : f ∈ fs1 → f ∈ fs := fun hm =>
        cropOne_json hf hingTgt (by rw [hc]; exact hm)
      cases hbs : boxes.instructions with
      | none =>
        rw [hbs] at h
        exact hfs1 h
      | some b2 =>
        rw [hbs] at h
        dsimp only at h
        cases hc2 : cropOne "instructions" b2 ⟨safe ++ "_instructions", "jpg"⟩ fs1 with
        | ok v2 =>
          obtain ⟨q2, fs2, ev2⟩ := v2
          rw [hc2] at h
          dsimp only at h
          exact hfs1 (cropOne_json hf hinsTgt (by rw [hc2]; exact h))
        | error e2 =>
          obtain ⟨fs2, ev2⟩ := e2
          rw [hc2] at h
          dsimp only at h
          exact hfs1 (cropOne_json hf hinsTgt (by rw [hc2]; exact h))

theorem analyze_json (o : Oracles) (cfg : Config) (imgs : List PathName)
    (p : PathName) (fs : FS) {f : PathName} (hf : f.ext = "json")
    (h : f ∈ (analyze_images_with_actions o cfg imgs p fs).fs) : f ∈ fs := by
  rw [analyze_images_with_actions] at h
  dsimp only at h
  split at h
  · exact action_1_json o imgs p fs hf h
  · split at h
    · rw [(analyzeTail_preserves _ _ _ _ _ _ _ _ _).2.2.1] at h
      exact action_1_json o imgs p fs hf h
    · split at h
      · exact action_1_json o imgs p fs hf h
      · exact action_1_json o imgs p fs hf h
      · split at h
        · rw [(analyzeTail_preserves _ _ _ _ _ _ _ _ _).2.2.1] at h
          exact action_1_json o imgs p fs hf (crop_json _ _ _ hf h)
        · exact action_1_json o imgs p fs hf (crop_json _ _ _ hf h)

/-- C4 (amended): when the pipeline signals a hard failure by returning no
recipe without raising (Stage-2 failure, failed crop), the cleanup unlinks
the images at their original rasterization paths (all absent from the
resulting directory) and no JSON record is written — no stage of the
pipeline ever creates a JSON file, so any JSON present afterwards was
present before; image artifacts renamed by Stage 1 are NOT deleted.  When
instead an uncaught exception escapes (the stale-path encode of Actions
2-4 after a partial Stage-1 rename, or a failing JSON write), the
exception propagates past the cleanup loop to the batch driver and the
directory is left exactly as the pipeline left it: nothing is unlinked,
so even original-path rasterized images survive (see the counterexample's
second scenario). -/
theorem c4_cleanup_on_failure (o : Oracles) (cfg : Config) (fs : FS)
    (p : PathName)
    (h : (process_pdf o cfg fs p).written = none) :
    ((process_pdf o cfg fs p).raised = false →
      (∀ img ∈ (process_pdf o cfg fs p).createdImages,
        img ∉ (process_pdf o cfg fs p).fs) ∧
      (∀ f : PathName, f.ext = "json" →
        f ∈ (process_pdf o cfg fs p).fs → f ∈ fs)) ∧
    ((process_pdf o cfg fs p).raised = true →
      ∀ a, (process_pdf o cfg fs p).an = some a →
        (process_pdf o cfg fs p).fs = a.fs) := by
  by_cases hn : o.pages p = 0
  · rw [process_pdf, if_pos hn]
    constructor
    · intro _
      constructor
      · intro img him
        simp at him
      · intro f _ hm
        exact hm
    · intro hc
      simp at hc
  · rw [process_pdf, if_neg hn] at h ⊢
    dsimp only at h ⊢
    by_cases hraised : (analyze_images_with_actions o cfg
        (imageTargets p.stem (o.pages p)) p
        (List.foldl addFile fs (imageTargets p.stem (o.pages p)))).raised = true
    · rw [if_pos hraised] at h ⊢
      constructor
      · intro hc
        simp at hc
      · intro _ a haa
        dsimp only at haa
        rw [Option.some.injEq] at haa
        rw [← haa]
    · rw [if_neg hraised] at h ⊢
      cases hrec : (analyze_images_with_actions o cfg
          (imageTargets p.stem (o.pages p)) p
          (List.foldl addFile fs (imageTargets p.stem (o.pages p)))).recipe with
      | some rj =>
        rw [hrec] at h
        dsimp only at h ⊢
        by_cases hwf : o.writeFails = true
        · rw [if_pos hwf] at h ⊢
          constructor
          · intro hc
            simp at hc
          · intro _ a haa
            dsimp only at haa
            rw [Option.some.injEq] at haa
            rw [← haa]
        · rw [if_neg hwf] at h
          exact absurd h (by simp)
      | none =>
        dsimp only
        constructor
        · intro _
          constructor
          · intro img him
            exact not_mem_foldl_removeFile him
          · intro f hf hm
            have h1 := mem_foldl_removeFile hm
            have h2 := analyze_json _ _ _ _ _ hf h1
            rcases foldl_addFile_mem h2 with h3 | h3
            · exact h3
            · rw [imageTargets_ext h3] at hf
              exact absurd hf (by decide)
        · intro hc
          simp at hc

/-- C4 witness: the cleanup theorem applied to the concrete non-raising
hard-failing run of the counterexample's first scenario. -/
theorem c4_cleanup_witness :
    (process_pdf oC4 cfg0 [pdfDoc] pdfDoc).written = none ∧
    (process_pdf oC4 cfg0 [pdfDoc] pdfDoc).raised = false ∧
    (∀ img ∈ (process_pdf oC4 cfg0 [pdfDoc] pdfDoc).createdImages,
      img ∉ (process_pdf oC4 cfg0 [pdfDoc] pdfDoc).fs) ∧
    (∀ f : PathName, f.ext = "json" →
      f ∈ (process_pdf oC4 cfg0 [pdfDoc] pdfDoc).fs → f ∈ [pdfDoc]) :=
  ⟨by decide, by decide,
   ((c4_cleanup_on_failure oC4 cfg0 [pdfDoc] pdfDoc (by decide)).1 (by decide)).1,
   ((c4_cleanup_on_failure oC4 cfg0 [pdfDoc] pdfDoc (by decide)).1 (by decide)).2⟩

/- ------------------------------------------------------------------ -/
/- Claim C8, amended part                                              -/
/- ------------------------------------------------------------------ -/

theorem process_pdf_written_json (o : Oracles) (cfg : Config) (fs : FS)
    (p : PathName) (jp : PathName) (rj : RecipeJson) (a : AnalyzeOut)
    (h : (process_pdf o cfg fs p).written = some (jp, rj))
    (ha : (process_pdf o cfg fs p).an = some a) :
    jp = ⟨a.updatedPdf.stem, "json"⟩ ∧ jp ∈ (process_pdf o cfg fs p).fs := by
  by_cases hn : o.pages p = 0
  · rw [process_pdf, if_pos hn] at h
    exact absurd h (by simp)
  · rw [process_pdf, if_neg hn] at h ha ⊢
    dsimp only at h ha ⊢
    by_cases hraised : (analyze_images_with_actions o cfg
        (imageTargets p.stem (o.pages p)) p
        (List.foldl addFile fs (imageTargets p.stem (o.pages p)))).raised = true
    · rw [if_pos hraised] at h
      exact absurd h (by simp)
    · rw [if_neg hraised] at h ha ⊢
      cases hrec : (analyze_images_with_actions o cfg
          (imageTargets p.stem (o.pages p)) p
          (List.foldl addFile fs (imageTargets p.stem (o.pages p)))).recipe with
      | none =>
        rw [hrec] at h
        exact absurd h (by simp)
      | some rj' =>
        rw [hrec] at h ha
        dsimp only at h ha ⊢
        by_cases hwf : o.writeFails = true
        · rw [if_pos hwf] at h
          exact absurd h (by simp)
        · rw [if_neg hwf] at h ha ⊢
          dsimp only [save_recipe_json] at h ha ⊢
          rw [Option.some.injEq, Prod.mk.injEq] at h
          rw [Option.some.injEq] at ha
          obtain ⟨hjp, hrj⟩ := h
          subst ha
          constructor
          · exact hjp.symm
          · rw [← hjp]
            exact mem_addFile.mpr (Or.inl rfl)

/-- C8 (amended): a source PDF is eligible exactly when no JPG artifact
whose stem extends the PDF's stem and no JSON record for the stem exist;
consequently a document whose processing succeeded (wrote its record) is
ineligible on a second run — its (possibly renamed) PDF now has a JSON
sibling.  A document that hard-failed leaving no artifacts is processed
again (see the counterexample), so the second run does not in general
process zero documents. -/
theorem c8_eligibility (fs : FS) (p : PathName) :
    (eligiblePdf fs p = true ↔
      ((∀ f ∈ fs, f.ext = "jpg" → isPrefixL p.stem.data f.stem.data = false) ∧
        (⟨p.stem, "json"⟩ : PathName) ∉ fs)) ∧
    (∀ (o : Oracles) (cfg : Config) (jp : PathName) (rj : RecipeJson)
      (a : AnalyzeOut),
      (process_pdf o cfg fs p).written = some (jp, rj) →
      (process_pdf o cfg fs p).an = some a →
      eligiblePdf (process_pdf o cfg fs p).fs a.updatedPdf = false) := by
  constructor
  · rw [eligiblePdf, hasJpgSibling, hasJsonSibling]
    constructor
    · intro h
      rw [Bool.not_eq_true', Bool.or_eq_false_iff] at h
      obtain ⟨h1, h2⟩ := h
      constructor
      · intro f hf hext
        by_contra hpre
        rw [Bool.not_eq_false] at hpre
        have : fs.any (fun f => decide (f.ext = "jpg") &&
            isPrefixL p.stem.data f.stem.data) = true :=
          List.any_eq_true.mpr ⟨f, hf, by rw [hpre, hext]; decide⟩
        rw [this] at h1
        exact absurd h1 (by decide)
      · intro hmem
        have : fs.any (fun f => decide (f = ⟨p.stem, "json"⟩)) = true :=
          List.any_eq_true.mpr ⟨_, hmem, decide_eq_true rfl⟩
        rw [this] at h2
        exact absurd h2 (by decide)
    · intro ⟨h1, h2⟩
      rw [Bool.not_eq_true', Bool.or_eq_false_iff]
      constructor
      · by_contra hany
        rw [Bool.not_eq_false, List.any_eq_true] at hany
        obtain ⟨f, hf, hprop⟩ := hany
        rw [Bool.and_eq_true] at hprop
        exact absurd (h1 f hf (of_decide_eq_true hprop.1))
          (by rw [hprop.2]; decide)
      · by_contra hany
        rw [Bool.not_eq_false, List.any_eq_true] at hany
        obtain ⟨f, hf, hprop⟩ := hany
        exact h2 (of_decide_eq_true hprop ▸ hf)
  · intro o cfg jp rj a hw ha
    obtain ⟨hjp, hmem⟩ := process_pdf_written_json o cfg fs p jp rj a hw ha
    rw [eligiblePdf]
    have hjson : (process_pdf o cfg fs p).fs.any
        (fun f => decide (f = ⟨a.updatedPdf.stem, "json"⟩)) = true :=
      List.any_eq_true.mpr ⟨jp, hmem, by rw [hjp]; exact decide_eq_true rfl⟩
    rw [hasJsonSibling, hjson]
    simp

/-- C8 witness: the eligibility characterization instantiated at the
one-PDF directory. -/
theorem c8_eligibility_witness :
    (eligiblePdf [pdfDoc] pdfDoc = true ↔
      ((∀ f ∈ ([pdfDoc] : FS), f.ext = "jpg" →
          isPrefixL pdfDoc.stem.data f.stem.data = false) ∧
        (⟨pdfDoc.stem, "json"⟩ : PathName) ∉ ([pdfDoc] : FS))) ∧
    (∀ (o : Oracles) (cfg : Config) (jp : PathName) (rj : RecipeJson)
      (a : AnalyzeOut),
      (process_pdf o cfg [pdfDoc] pdfDoc).written = some (jp, rj) →
      (process_pdf o cfg [pdfDoc] pdfDoc).an = some a →
      eligiblePdf (process_pdf o cfg [pdfDoc] pdfDoc).fs a.updatedPdf = false) :=
  c8_eligibility [pdfDoc] pdfDoc
